import Mathlib

/-!
# TaskFlow backend — authorization and ordering subsystem

Shallow embedding of the board/list/card controllers of the TaskFlow
backend (Express + Prisma).  The Prisma store is modelled as three lists
of records (boards, lists, cards); `findUnique` is `List.find?` on ids,
`update` maps over the matching record, `delete` filters it out, and
`$transaction` applies a batch of updates all-or-nothing (a Prisma
`update` whose `where` matches no row throws, rolling back the whole
transaction, which the controller's `catch` maps to a 500 response).

Each controller is a function from the request data and the store to a
pair `(HTTP status, resulting store)`.  Request-body fields are `Option`s
(`none` = absent/undefined); a JS falsy check `!x` on a string field is
`none` or the empty string.  The authenticated `userId` is a plain
argument (the 401 branch for a missing token is outside the claims).
-/

namespace TaskFlow

/-- A member row of a board (Prisma `Member`, projected to its `userId`
as every controller's `select: { userId: true }` does). -/
structure Member where
  userId : String
deriving Repr, DecidableEq

/-- Prisma `Board`: id, title, owner, member rows. -/
structure Board where
  id : String
  title : String
  ownerId : String
  members : List Member
deriving Repr, DecidableEq

/-- Prisma `List` (named `BoardList` here because `List` is taken). -/
structure BoardList where
  id : String
  boardId : String
  title : String
  order : Int
deriving Repr, DecidableEq

/-- Prisma `Card`. `dueDate` keeps the raw date string (`new Date` is
modelled as the identity on the string). -/
structure Card where
  id : String
  listId : String
  title : String
  description : Option String
  labels : List String
  dueDate : Option String
  order : Int
deriving Repr, DecidableEq

/-- The transactional store: all boards, lists and cards. -/
structure Store where
  boards : List Board
  lists : List BoardList
  cards : List Card
deriving Repr, DecidableEq

/-- `prisma.board.findUnique({ where: { id } })`. -/
def findBoard (s : Store) (id : String) : Option Board :=
  s.boards.find? (fun b => b.id == id)

/-- `prisma.list.findUnique({ where: { id } })`. -/
def findList (s : Store) (id : String) : Option BoardList :=
  s.lists.find? (fun l => l.id == id)

/-- `prisma.card.findUnique({ where: { id } })`. -/
def findCard (s : Store) (id : String) : Option Card :=
  s.cards.find? (fun c => c.id == id)

/-- The access check every controller repeats:
`board.ownerId === userId || board.members.some(m => m.userId === userId)`. -/
def hasAccess (userId : String) (board : Board) : Bool :=
  board.ownerId == userId || board.members.any (fun m => m.userId == userId)

/-- The character class JS `String.prototype.trim` strips. -/
def jsWhitespace (c : Char) : Bool :=
  c == ' ' || c == '\t' || c == '\n' || c == '\r'

/-- JS `.trim()`: strip leading and trailing whitespace.  (Lean's own
`String.trim` is an extern and does not reduce, so trimming is embedded
at the character level.) -/
def jsTrim (s : String) : String :=
  ⟨((s.data.dropWhile jsWhitespace).reverse.dropWhile jsWhitespace).reverse⟩

/-- JS validation `!title || title.trim() === ''` on a request-body
string field (absent, null, empty, or whitespace-only). -/
def blankTitle : Option String → Bool
  | none => true
  | some t => jsTrim t == ""

/-- `GET /api/boards/:id` (`getBoardById`): look the board up, 404 if
absent, 403 unless owner or member, else 200 with the nested payload
(the projection does not change the store). -/
def getBoardById (userId : String) (id : String) (s : Store) : Nat × Store :=
  match findBoard s id with
  | none => (404, s)
  | some board =>
    if hasAccess userId board then (200, s) else (403, s)

/-- `PUT /api/boards/:id` (`updateBoard`): validate the title, look the
board up, 404 if absent, 403 unless the caller is the owner, else store
the trimmed title. -/
def updateBoard (userId : String) (id : String) (title : Option String) (s : Store) : Nat × Store :=
  if blankTitle title then (400, s)
  else
    match findBoard s id with
    | none => (404, s)
    | some board =>
      if board.ownerId != userId then (403, s)
      else
        (200, { s with boards := s.boards.map (fun b =>
          if b.id == id then { b with title := jsTrim (title.getD "") } else b) })

/-- `DELETE /api/boards/:id` (`deleteBoard`): 404 if absent, 403 unless
owner, else delete the board; the store-level cascade removes its lists
and the cards of those lists. -/
def deleteBoard (userId : String) (id : String) (s : Store) : Nat × Store :=
  match findBoard s id with
  | none => (404, s)
  | some board =>
    if board.ownerId != userId then (403, s)
    else
      (200, { boards := s.boards.filter (fun b => b.id != id),
              lists := s.lists.filter (fun l => l.boardId != id),
              cards := s.cards.filter (fun c =>
                !(s.lists.any (fun l => l.id == c.listId && l.boardId == id))) })

/-- `findFirst({ where: scope, orderBy: { order: 'desc' } })` projected
to its `order`: the greatest order value in the scope, `none` if empty. -/
def maxOrder : List Int → Option Int
  | [] => none
  | o :: os =>
    match maxOrder os with
    | none => some o
    | some m => some (max o m)

/-- `POST /api/boards/:boardId/lists` (`createList`): validate title,
resolve the board (404), check access (403), then create the list with
`order = maxOrderList ? maxOrderList.order + 1 : 0`.  `newId` stands for
the id Prisma generates for the new row. -/
def createList (userId : String) (boardId : String) (title : Option String)
    (newId : String) (s : Store) : Nat × Store :=
  if blankTitle title then (400, s)
  else
    match findBoard s boardId with
    | none => (404, s)
    | some board =>
      if !hasAccess userId board then (403, s)
      else
        (201, { s with lists := s.lists ++
          [{ id := newId, boardId := boardId, title := jsTrim (title.getD ""),
             order :=
               match maxOrder ((s.lists.filter (fun l => l.boardId == boardId)).map (·.order)) with
               | none => 0
               | some m => m + 1 }] })

/-- `PUT /api/lists/:id` (`updateList`): validate title, resolve the
list with its board (404), check access (403), then store the trimmed
title. The board row the nested include loads must exist (foreign key);
a dangling `boardId` would make the controller throw (500). -/
def updateList (userId : String) (id : String) (title : Option String) (s : Store) : Nat × Store :=
  if blankTitle title then (400, s)
  else
    match findList s id with
    | none => (404, s)
    | some list =>
      match findBoard s list.boardId with
      | none => (500, s)
      | some board =>
        if !hasAccess userId board then (403, s)
        else
          (200, { s with lists := s.lists.map (fun l =>
            if l.id == id then { l with title := jsTrim (title.getD "") } else l) })

/-- `DELETE /api/lists/:id` (`deleteList`): resolve the list with its
board (404), check access (403), then delete it; the cascade removes its
cards. -/
def deleteList (userId : String) (id : String) (s : Store) : Nat × Store :=
  match findList s id with
  | none => (404, s)
  | some list =>
    match findBoard s list.boardId with
    | none => (500, s)
    | some board =>
      if !hasAccess userId board then (403, s)
      else
        (200, { s with lists := s.lists.filter (fun l => l.id != id),
                       cards := s.cards.filter (fun c => c.listId != id) })

/-- `description?.trim() || null` applied to a present body field whose
value is `null` or a string: a string trims, and a falsy result (empty
string or null) becomes null. -/
def normDesc : Option String → Option String
  | none => none
  | some d => if jsTrim d == "" then none else some (jsTrim d)

/-- `dueDate ? new Date(dueDate) : null` applied to a present body field:
a falsy value (null, empty string) becomes null, otherwise the date is
kept (`new Date` modelled as the identity on the string). -/
def normDue : Option String → Option String
  | none => none
  | some d => if d == "" then none else some d

/-- `POST /api/lists/:listId/cards` (`createCard`): validate title,
resolve the list with its board (404), check access (403), then create
the card with `order = maxOrderCard ? maxOrderCard.order + 1 : 0`,
`description?.trim() || null`, `labels || []`, and
`dueDate ? new Date(dueDate) : null`. -/
def createCard (userId : String) (listId : String) (title : Option String)
    (description : Option (Option String)) (labels : Option (List String))
    (dueDate : Option (Option String)) (newId : String) (s : Store) : Nat × Store :=
  if blankTitle title then (400, s)
  else
    match findList s listId with
    | none => (404, s)
    | some list =>
      match findBoard s list.boardId with
      | none => (500, s)
      | some board =>
        if !hasAccess userId board then (403, s)
        else
          (201, { s with cards := s.cards ++
            [{ id := newId, listId := listId, title := jsTrim (title.getD ""),
               description := normDesc (description.getD none),
               labels := labels.getD [],
               dueDate := normDue (dueDate.getD none),
               order :=
                 match maxOrder ((s.cards.filter (fun c => c.listId == listId)).map (·.order)) with
                 | none => 0
                 | some m => m + 1 }] })

/-- `GET /api/cards/:id` (`getCard`): resolve the card with its list and
board (404 if the card is absent), check access (403), else 200. -/
def getCard (userId : String) (id : String) (s : Store) : Nat × Store :=
  match findCard s id with
  | none => (404, s)
  | some card =>
    match findList s card.listId with
    | none => (500, s)
    | some list =>
      match findBoard s list.boardId with
      | none => (500, s)
      | some board =>
        if !hasAccess userId board then (403, s) else (200, s)

/-- The `updateData` object `updateCard` builds: each present body field
overwrites the stored field (title already trimmed by the caller),
absent fields are left out of the update. -/
def applyCardBody (newTitle : Option String) (description : Option (Option String))
    (labels : Option (List String)) (dueDate : Option (Option String)) (c : Card) : Card :=
  { c with
    title := newTitle.getD c.title,
    description := match description with | none => c.description | some v => normDesc v,
    labels := labels.getD c.labels,
    dueDate := match dueDate with | none => c.dueDate | some v => normDue v }

/-- `PUT /api/cards/:id` (`updateCard`): resolve the card with its list
and board (404), check access (403), reject a present-but-blank title
(400), then apply the partial update built from the present fields. -/
def updateCard (userId : String) (id : String) (title : Option String)
    (description : Option (Option String)) (labels : Option (List String))
    (dueDate : Option (Option String)) (s : Store) : Nat × Store :=
  match findCard s id with
  | none => (404, s)
  | some card =>
    match findList s card.listId with
    | none => (500, s)
    | some list =>
      match findBoard s list.boardId with
      | none => (500, s)
      | some board =>
        if !hasAccess userId board then (403, s)
        else
          match title with
          | some t =>
            if jsTrim t == "" then (400, s)
            else
              (200, { s with cards := s.cards.map (fun c =>
                if c.id == id then applyCardBody (some (jsTrim t)) description labels dueDate c else c) })
          | none =>
            (200, { s with cards := s.cards.map (fun c =>
              if c.id == id then applyCardBody none description labels dueDate c else c) })

/-- `DELETE /api/cards/:id` (`deleteCard`): resolve the card with its
list and board (404), check access (403), then delete the card. -/
def deleteCard (userId : String) (id : String) (s : Store) : Nat × Store :=
  match findCard s id with
  | none => (404, s)
  | some card =>
    match findList s card.listId with
    | none => (500, s)
    | some list =>
      match findBoard s list.boardId with
      | none => (500, s)
      | some board =>
        if !hasAccess userId board then (403, s)
        else (200, { s with cards := s.cards.filter (fun c => c.id != id) })

/-- `PUT /api/cards/:id/move` (`moveCard`): validate the body
(`!listId || typeof order !== 'number'` → 400), resolve the card with
its source board (404), check source access (403), resolve the target
list with its board (404), check target access (403), then update the
card's `listId` and `order` in one store write. -/
def moveCard (userId : String) (id : String) (listId : Option String)
    (order : Option Int) (s : Store) : Nat × Store :=
  match listId, order with
  | some tl, some o =>
    if tl == "" then (400, s)
    else
      match findCard s id with
      | none => (404, s)
      | some card =>
        match findList s card.listId with
        | none => (500, s)
        | some srcList =>
          match findBoard s srcList.boardId with
          | none => (500, s)
          | some srcBoard =>
            if !hasAccess userId srcBoard then (403, s)
            else
              match findList s tl with
              | none => (404, s)
              | some targetList =>
                match findBoard s targetList.boardId with
                | none => (500, s)
                | some targetBoard =>
                  if !hasAccess userId targetBoard then (403, s)
                  else
                    (200, { s with cards := s.cards.map (fun c =>
                      if c.id == id then { c with listId := tl, order := o } else c) })
  | _, _ => (400, s)

/-- One entry of the `reorderLists` request body; both fields may be
absent or malformed (`none`), which the controller rejects with 400. -/
structure ReorderItem where
  id : Option String
  order : Option Int
deriving Repr, DecidableEq

/-- The `reorderLists` validation loop: every entry must have a truthy
`id` and a numeric `order`; the validated `(id, order)` pairs are
returned, `none` if any entry is malformed. -/
def checkItems : List ReorderItem → Option (List (String × Int))
  | [] => some []
  | it :: rest =>
    match it.id, it.order with
    | some i, some o =>
      if i == "" then none
      else
        match checkItems rest with
        | none => none
        | some ps => some ((i, o) :: ps)
    | _, _ => none

/-- The body of `prisma.$transaction(lists.map(... update ...))`: the
updates run in order, and an update whose `where` matches no row throws,
aborting the whole transaction (`none`). -/
def applyListOrderUpdates : List (String × Int) → List BoardList → Option (List BoardList)
  | [], ls => some ls
  | (i, o) :: rest, ls =>
    if ls.any (fun l => l.id == i) then
      applyListOrderUpdates rest (ls.map (fun l => if l.id == i then { l with order := o } else l))
    else none

/-- `PUT /api/boards/:boardId/lists/reorder` (`reorderLists`): validate
the array and each entry (400), resolve the *first* entry's list (404)
and its board, check access on that board only (403), then persist every
`(id, order)` pair in a single transaction; a failing update rolls the
whole transaction back and the catch-all answers 500. -/
def reorderLists (userId : String) (lists : Option (List ReorderItem)) (s : Store) : Nat × Store :=
  match lists with
  | none => (400, s)
  | some items =>
    if items.isEmpty then (400, s)
    else
      match checkItems items with
      | none => (400, s)
      | some pairs =>
        match pairs with
        | [] => (400, s)
        | (i0, _) :: _ =>
          match findList s i0 with
          | none => (404, s)
          | some firstList =>
            match findBoard s firstList.boardId with
            | none => (500, s)
            | some board =>
              if !hasAccess userId board then (403, s)
              else
                match applyListOrderUpdates pairs s.lists with
                | none => (500, s)
                | some ls2 => (200, { s with lists := ls2 })

/-! ## Characterization lemmas: one per controller branch -/

theorem getBoardById_eq (s : Store) (u id : String) (b : Board)
    (hb : findBoard s id = some b) :
    getBoardById u id s = if hasAccess u b then (200, s) else (403, s) := by
  simp only [getBoardById, hb]

theorem getBoardById_notFound (s : Store) (u id : String)
    (hb : findBoard s id = none) : getBoardById u id s = (404, s) := by
  simp only [getBoardById, hb]

theorem updateBoard_eq (s : Store) (u id : String) (t : Option String) (b : Board)
    (ht : blankTitle t = false) (hb : findBoard s id = some b) :
    updateBoard u id t s =
      if b.ownerId == u then
        (200, { s with boards := s.boards.map (fun b2 =>
          if b2.id == id then { b2 with title := jsTrim (t.getD "") } else b2) })
      else (403, s) := by
  simp only [updateBoard, ht, hb, Bool.false_eq_true, if_false]
  cases h : b.ownerId == u <;> simp [bne, h]

theorem updateBoard_notFound (s : Store) (u id : String) (t : Option String)
    (ht : blankTitle t = false) (hb : findBoard s id = none) :
    updateBoard u id t s = (404, s) := by
  simp only [updateBoard, ht, hb, Bool.false_eq_true, if_false]

theorem deleteBoard_eq (s : Store) (u id : String) (b : Board)
    (hb : findBoard s id = some b) :
    deleteBoard u id s =
      if b.ownerId == u then
        (200, { boards := s.boards.filter (fun b2 => b2.id != id),
                lists := s.lists.filter (fun l => l.boardId != id),
                cards := s.cards.filter (fun c =>
                  !(s.lists.any (fun l => l.id == c.listId && l.boardId == id))) })
      else (403, s) := by
  simp only [deleteBoard, hb]
  cases h : b.ownerId == u <;> simp [bne, h]

theorem deleteBoard_notFound (s : Store) (u id : String)
    (hb : findBoard s id = none) : deleteBoard u id s = (404, s) := by
  simp only [deleteBoard, hb]

theorem createList_eq (s : Store) (u boardId newId : String) (t : Option String) (b : Board)
    (ht : blankTitle t = false) (hb : findBoard s boardId = some b) :
    createList u boardId t newId s =
      if hasAccess u b then
        (201, { s with lists := s.lists ++
          [{ id := newId, boardId := boardId, title := jsTrim (t.getD ""),
             order :=
               match maxOrder ((s.lists.filter (fun l => l.boardId == boardId)).map (·.order)) with
               | none => 0
               | some m => m + 1 }] })
      else (403, s) := by
  simp only [createList, ht, hb, Bool.false_eq_true, if_false]
  cases h : hasAccess u b <;> simp [h]

theorem createList_notFound (s : Store) (u boardId newId : String) (t : Option String)
    (ht : blankTitle t = false) (hb : findBoard s boardId = none) :
    createList u boardId t newId s = (404, s) := by
  simp only [createList, ht, hb, Bool.false_eq_true, if_false]

theorem updateList_eq (s : Store) (u id : String) (t : Option String)
    (l : BoardList) (b : Board)
    (ht : blankTitle t = false) (hl : findList s id = some l)
    (hb : findBoard s l.boardId = some b) :
    updateList u id t s =
      if hasAccess u b then
        (200, { s with lists := s.lists.map (fun l2 =>
          if l2.id == id then { l2 with title := jsTrim (t.getD "") } else l2) })
      else (403, s) := by
  simp only [updateList, ht, hl, hb, Bool.false_eq_true, if_false]
  cases h : hasAccess u b <;> simp [h]

theorem updateList_notFound (s : Store) (u id : String) (t : Option String)
    (ht : blankTitle t = false) (hl : findList s id = none) :
    updateList u id t s = (404, s) := by
  simp only [updateList, ht, hl, Bool.false_eq_true, if_false]

theorem deleteList_eq (s : Store) (u id : String) (l : BoardList) (b : Board)
    (hl : findList s id = some l) (hb : findBoard s l.boardId = some b) :
    deleteList u id s =
      if hasAccess u b then
        (200, { s with lists := s.lists.filter (fun l2 => l2.id != id),
                       cards := s.cards.filter (fun c => c.listId != id) })
      else (403, s) := by
  simp only [deleteList, hl, hb]
  cases h : hasAccess u b <;> simp [h]

theorem deleteList_notFound (s : Store) (u id : String)
    (hl : findList s id = none) : deleteList u id s = (404, s) := by
  simp only [deleteList, hl]

theorem createCard_eq (s : Store) (u listId newId : String) (t : Option String)
    (d : Option (Option String)) (lb : Option (List String)) (dd : Option (Option String))
    (l : BoardList) (b : Board)
    (ht : blankTitle t = false) (hl : findList s listId = some l)
    (hb : findBoard s l.boardId = some b) :
    createCard u listId t d lb dd newId s =
      if hasAccess u b then
        (201, { s with cards := s.cards ++
          [{ id := newId, listId := listId, title := jsTrim (t.getD ""),
             description := normDesc (d.getD none),
             labels := lb.getD [],
             dueDate := normDue (dd.getD none),
             order :=
               match maxOrder ((s.cards.filter (fun c => c.listId == listId)).map (·.order)) with
               | none => 0
               | some m => m + 1 }] })
      else (403, s) := by
  simp only [createCard, ht, hl, hb, Bool.false_eq_true, if_false]
  cases h : hasAccess u b <;> simp [h]

theorem createCard_notFound (s : Store) (u listId newId : String) (t : Option String)
    (d : Option (Option String)) (lb : Option (List String)) (dd : Option (Option String))
    (ht : blankTitle t = false) (hl : findList s listId = none) :
    createCard u listId t d lb dd newId s = (404, s) := by
  simp only [createCard, ht, hl, Bool.false_eq_true, if_false]

theorem getCard_eq (s : Store) (u id : String) (c : Card) (l : BoardList) (b : Board)
    (hc : findCard s id = some c) (hl : findList s c.listId = some l)
    (hb : findBoard s l.boardId = some b) :
    getCard u id s = if hasAccess u b then (200, s) else (403, s) := by
  simp only [getCard, hc, hl, hb]
  cases h : hasAccess u b <;> simp [h]

theorem getCard_notFound (s : Store) (u id : String)
    (hc : findCard s id = none) : getCard u id s = (404, s) := by
  simp only [getCard, hc]

theorem deleteCard_eq (s : Store) (u id : String) (c : Card) (l : BoardList) (b : Board)
    (hc : findCard s id = some c) (hl : findList s c.listId = some l)
    (hb : findBoard s l.boardId = some b) :
    deleteCard u id s =
      if hasAccess u b then
        (200, { s with cards := s.cards.filter (fun c2 => c2.id != id) })
      else (403, s) := by
  simp only [deleteCard, hc, hl, hb]
  cases h : hasAccess u b <;> simp [h]

theorem deleteCard_notFound (s : Store) (u id : String)
    (hc : findCard s id = none) : deleteCard u id s = (404, s) := by
  simp only [deleteCard, hc]

theorem updateCard_denied (s : Store) (u id : String) (t : Option String)
    (d : Option (Option String)) (lb : Option (List String)) (dd : Option (Option String))
    (c : Card) (l : BoardList) (b : Board)
    (hc : findCard s id = some c) (hl : findList s c.listId = some l)
    (hb : findBoard s l.boardId = some b) (hacc : hasAccess u b = false) :
    updateCard u id t d lb dd s = (403, s) := by
  simp only [updateCard, hc, hl, hb, hacc]
  simp

theorem updateCard_noTitle (s : Store) (u id : String)
    (d : Option (Option String)) (lb : Option (List String)) (dd : Option (Option String))
    (c : Card) (l : BoardList) (b : Board)
    (hc : findCard s id = some c) (hl : findList s c.listId = some l)
    (hb : findBoard s l.boardId = some b) (hacc : hasAccess u b = true) :
    updateCard u id none d lb dd s =
      (200, { s with cards := s.cards.map (fun c2 =>
        if c2.id == id then applyCardBody none d lb dd c2 else c2) }) := by
  simp only [updateCard, hc, hl, hb, hacc]
  simp

theorem updateCard_someTitle (s : Store) (u id : String) (tt : String)
    (d : Option (Option String)) (lb : Option (List String)) (dd : Option (Option String))
    (c : Card) (l : BoardList) (b : Board)
    (hc : findCard s id = some c) (hl : findList s c.listId = some l)
    (hb : findBoard s l.boardId = some b) (hacc : hasAccess u b = true)
    (htt : (jsTrim tt == "") = false) :
    updateCard u id (some tt) d lb dd s =
      (200, { s with cards := s.cards.map (fun c2 =>
        if c2.id == id then applyCardBody (some (jsTrim tt)) d lb dd c2 else c2) }) := by
  simp only [updateCard, hc, hl, hb, hacc, htt]
  simp [htt]

theorem updateCard_notFound (s : Store) (u id : String) (t : Option String)
    (d : Option (Option String)) (lb : Option (List String)) (dd : Option (Option String))
    (hc : findCard s id = none) : updateCard u id t d lb dd s = (404, s) := by
  simp only [updateCard, hc]

theorem moveCard_invalid (s : Store) (u id : String) (tl? : Option String) (o? : Option Int)
    (hbad : tl? = none ∨ tl? = some "" ∨ o? = none) :
    moveCard u id tl? o? s = (400, s) := by
  rcases hbad with h | h | h
  · subst h; cases o? <;> rfl
  · subst h; cases o? <;> rfl
  · subst h; cases tl? <;> rfl

theorem moveCard_cardNotFound (s : Store) (u id tl : String) (o : Int)
    (htl : (tl == "") = false) (hc : findCard s id = none) :
    moveCard u id (some tl) (some o) s = (404, s) := by
  simp only [moveCard, htl, hc, Bool.false_eq_true, if_false]

theorem moveCard_srcDenied (s : Store) (u id tl : String) (o : Int)
    (c : Card) (srcL : BoardList) (srcB : Board)
    (htl : (tl == "") = false) (hc : findCard s id = some c)
    (hsl : findList s c.listId = some srcL) (hsb : findBoard s srcL.boardId = some srcB)
    (hacc : hasAccess u srcB = false) :
    moveCard u id (some tl) (some o) s = (403, s) := by
  simp only [moveCard, htl, hc, hsl, hsb, hacc, Bool.false_eq_true, if_false]
  simp

theorem moveCard_targetNotFound (s : Store) (u id tl : String) (o : Int)
    (c : Card) (srcL : BoardList) (srcB : Board)
    (htl : (tl == "") = false) (hc : findCard s id = some c)
    (hsl : findList s c.listId = some srcL) (hsb : findBoard s srcL.boardId = some srcB)
    (hacc : hasAccess u srcB = true) (htgt : findList s tl = none) :
    moveCard u id (some tl) (some o) s = (404, s) := by
  simp only [moveCard, htl, hc, hsl, hsb, hacc, htgt, Bool.false_eq_true, if_false]
  simp

theorem moveCard_tgtDenied (s : Store) (u id tl : String) (o : Int)
    (c : Card) (srcL : BoardList) (srcB : Board) (tgtL : BoardList) (tgtB : Board)
    (htl : (tl == "") = false) (hc : findCard s id = some c)
    (hsl : findList s c.listId = some srcL) (hsb : findBoard s srcL.boardId = some srcB)
    (hacc : hasAccess u srcB = true) (htgt : findList s tl = some tgtL)
    (htb : findBoard s tgtL.boardId = some tgtB) (hacc2 : hasAccess u tgtB = false) :
    moveCard u id (some tl) (some o) s = (403, s) := by
  simp only [moveCard, htl, hc, hsl, hsb, hacc, htgt, htb, hacc2, Bool.false_eq_true, if_false]
  simp

theorem moveCard_ok (s : Store) (u id tl : String) (o : Int)
    (c : Card) (srcL : BoardList) (srcB : Board) (tgtL : BoardList) (tgtB : Board)
    (htl : (tl == "") = false) (hc : findCard s id = some c)
    (hsl : findList s c.listId = some srcL) (hsb : findBoard s srcL.boardId = some srcB)
    (hacc : hasAccess u srcB = true) (htgt : findList s tl = some tgtL)
    (htb : findBoard s tgtL.boardId = some tgtB) (hacc2 : hasAccess u tgtB = true) :
    moveCard u id (some tl) (some o) s =
      (200, { s with cards := s.cards.map (fun c2 =>
        if c2.id == id then { c2 with listId := tl, order := o } else c2) }) := by
  simp only [moveCard, htl, hc, hsl, hsb, hacc, htgt, htb, hacc2, Bool.false_eq_true, if_false]
  simp

/-! ## The reorder transaction -/

/-- The net effect of the transaction's sequence of updates on one list
record: each matching pair overwrites `order`, later pairs win. -/
def applyPairs (pairs : List (String × Int)) (l : BoardList) : BoardList :=
  pairs.foldl (fun acc p => if acc.id == p.1 then { acc with order := p.2 } else acc) l

/-- The order the last pair of the batch mentioning `i` assigns to `i`. -/
def lastOrder : List (String × Int) → String → Option Int
  | [], _ => none
  | p :: rest, i =>
    match lastOrder rest i with
    | some o => some o
    | none => if p.1 == i then some p.2 else none

theorem applyPairs_nil (l : BoardList) : applyPairs [] l = l := rfl

theorem applyPairs_cons (p : String × Int) (ps : List (String × Int)) (l : BoardList) :
    applyPairs (p :: ps) l =
      applyPairs ps (if l.id == p.1 then { l with order := p.2 } else l) := rfl

theorem applyPairs_fields (ps : List (String × Int)) (l : BoardList) :
    (applyPairs ps l).id = l.id ∧ (applyPairs ps l).title = l.title ∧
    (applyPairs ps l).boardId = l.boardId := by
  induction ps generalizing l with
  | nil => exact ⟨rfl, rfl, rfl⟩
  | cons p ps ih =>
    rw [applyPairs_cons]
    rcases ih (if l.id == p.1 then { l with order := p.2 } else l) with ⟨h1, h2, h3⟩
    refine ⟨?_, ?_, ?_⟩
    · rw [h1]; cases h : l.id == p.1 <;> simp
    · rw [h2]; cases h : l.id == p.1 <;> simp
    · rw [h3]; cases h : l.id == p.1 <;> simp

theorem applyPairs_not_named (ps : List (String × Int)) (l : BoardList)
    (h : l.id ∉ ps.map Prod.fst) : applyPairs ps l = l := by
  induction ps with
  | nil => rfl
  | cons p ps ih =>
    simp only [List.map_cons, List.mem_cons] at h
    push_neg at h
    rw [applyPairs_cons]
    have hne : (l.id == p.1) = false := by
      simp [beq_iff_eq]
      exact h.1
    rw [hne]
    simp only [Bool.false_eq_true, if_false]
    exact ih h.2

theorem applyPairs_order (ps : List (String × Int)) (l : BoardList) :
    (applyPairs ps l).order = (lastOrder ps l.id).getD l.order := by
  induction ps generalizing l with
  | nil => rfl
  | cons p ps ih =>
    rw [applyPairs_cons, lastOrder]
    have hid : (if l.id == p.1 then { l with order := p.2 } else l).id = l.id := by
      cases h : l.id == p.1 <;> simp
    rw [ih, hid]
    cases hlast : lastOrder ps l.id with
    | some o => simp
    | none =>
      cases h : l.id == p.1 with
      | true =>
        have : (p.1 == l.id) = true := by
          rw [beq_iff_eq] at h ⊢
          exact h.symm
        simp [this, h]
      | false =>
        have : (p.1 == l.id) = false := by
          rw [beq_eq_false_iff_ne] at h ⊢
          exact fun hh => h hh.symm
        simp [this, h]

theorem applyListOrderUpdates_some (ps : List (String × Int)) (ls ls2 : List BoardList)
    (h : applyListOrderUpdates ps ls = some ls2) : ls2 = ls.map (applyPairs ps) := by
  induction ps generalizing ls with
  | nil =>
    simp only [applyListOrderUpdates, Option.some.injEq] at h
    subst h
    rw [show applyPairs [] = id from rfl, List.map_id]
  | cons p rest ih =>
    obtain ⟨i, o⟩ := p
    rw [applyListOrderUpdates] at h
    cases hany : ls.any (fun l => l.id == i) with
    | false => rw [hany] at h; simp at h
    | true =>
      rw [hany] at h
      simp only [if_true] at h
      have h2 := ih _ h
      rw [h2, List.map_map]
      rfl

theorem applyListOrderUpdates_none_iff (ps : List (String × Int)) (ls : List BoardList) :
    applyListOrderUpdates ps ls = none ↔ ∃ p ∈ ps, ∀ l ∈ ls, l.id ≠ p.1 := by
  induction ps generalizing ls with
  | nil => simp [applyListOrderUpdates]
  | cons p rest ih =>
    obtain ⟨i, o⟩ := p
    rw [applyListOrderUpdates]
    cases hany : ls.any (fun l => l.id == i) with
    | true =>
      simp only [if_true]
      rw [ih]
      constructor
      · rintro ⟨q, hq, hall⟩
        refine ⟨q, List.mem_cons_of_mem _ hq, fun l hl => ?_⟩
        have h2 := hall (if l.id == i then { l with order := o } else l)
          (List.mem_map_of_mem _ hl)
        cases hh : l.id == i <;> simpa [hh] using h2
      · rintro ⟨q, hq, hall⟩
        rcases List.mem_cons.mp hq with rfl | hq2
        · exfalso
          rcases List.any_eq_true.mp hany with ⟨l, hl, hbeq⟩
          exact hall l hl (by rwa [beq_iff_eq] at hbeq)
        · refine ⟨q, hq2, fun l2 hl2 => ?_⟩
          rcases List.mem_map.mp hl2 with ⟨l0, hl0, rfl⟩
          have h3 := hall l0 hl0
          cases hh : l0.id == i <;> simpa [hh] using h3
    | false =>
      simp only [List.any_eq_false, beq_iff_eq] at hany
      simp only [Bool.false_eq_true, if_false, true_iff]
      exact ⟨(i, o), List.mem_cons_self _ _, fun l hl => hany l hl⟩

theorem checkItems_ne_nil (items : List ReorderItem) (p : String × Int)
    (ps : List (String × Int)) (h : checkItems items = some (p :: ps)) :
    items.isEmpty = false := by
  cases items with
  | nil => simp [checkItems] at h
  | cons it rest => rfl

theorem reorderLists_invalid (s : Store) (u : String) (items : List ReorderItem)
    (hv : checkItems items = none) : reorderLists u (some items) s = (400, s) := by
  cases items with
  | nil => rfl
  | cons it rest =>
    simp only [reorderLists, List.isEmpty_cons, hv, Bool.false_eq_true, if_false]

theorem reorderLists_stage (s : Store) (u : String) (items : List ReorderItem)
    (i0 : String) (o0 : Int) (rest : List (String × Int))
    (hv : checkItems items = some ((i0, o0) :: rest)) :
    reorderLists u (some items) s =
      match findList s i0 with
      | none => (404, s)
      | some firstList =>
        match findBoard s firstList.boardId with
        | none => (500, s)
        | some board =>
          if hasAccess u board then
            match applyListOrderUpdates ((i0, o0) :: rest) s.lists with
            | none => (500, s)
            | some ls2 => (200, { s with lists := ls2 })
          else (403, s) := by
  have hne := checkItems_ne_nil items (i0, o0) rest hv
  simp only [reorderLists, hne, hv, Bool.false_eq_true, if_false]
  cases hfl : findList s i0 with
  | none => rfl
  | some fl =>
    dsimp only
    cases hb : findBoard s fl.boardId with
    | none => rfl
    | some b =>
      dsimp only
      cases h : hasAccess u b <;> simp [h]

theorem updateCard_badTitle (s : Store) (u id : String) (tt : String)
    (d : Option (Option String)) (lb : Option (List String)) (dd : Option (Option String))
    (c : Card) (l : BoardList) (b : Board)
    (hc : findCard s id = some c) (hl : findList s c.listId = some l)
    (hb : findBoard s l.boardId = some b) (hacc : hasAccess u b = true)
    (htt : (jsTrim tt == "") = true) :
    updateCard u id (some tt) d lb dd s = (400, s) := by
  simp only [updateCard, hc, hl, hb, hacc, htt]
  simp [htt]

theorem find_map_of_pred_eq {α : Type} (f : α → α) (p : α → Bool)
    (hp : ∀ x, p (f x) = p x) (l : List α) :
    (l.map f).find? p = (l.find? p).map f := by
  induction l with
  | nil => rfl
  | cons a t ih =>
    simp only [List.map_cons]
    cases h : p a with
    | true =>
      rw [List.find?_cons_of_pos _ (by rw [hp]; exact h), List.find?_cons_of_pos _ h]
      rfl
    | false =>
      rw [List.find?_cons_of_neg _ (by rw [hp]; simp [h]),
        List.find?_cons_of_neg _ (by simp [h]), ih]

theorem length_filter_eq_one_of_nodup {α : Type} (f : α → String) (xs : List α)
    (hnd : (xs.map f).Nodup) (a : String) (ha : a ∈ xs.map f) :
    (xs.filter (fun x => f x == a)).length = 1 := by
  induction xs with
  | nil => simp at ha
  | cons x t ih =>
    rw [List.map_cons, List.nodup_cons] at hnd
    rw [List.map_cons, List.mem_cons] at ha
    by_cases h : f x = a
    · subst h
      rw [List.filter_cons_of_pos (by simp)]
      have hnil : t.filter (fun y => f y == f x) = [] := by
        rw [List.filter_eq_nil_iff]
        intro y hy
        simp only [beq_iff_eq]
        intro hEq
        exact hnd.1 (hEq ▸ List.mem_map_of_mem f hy)
      rw [List.length_cons, hnil]
      rfl
    · rcases ha with rfl | ha2
      · exact absurd rfl h
      rw [List.filter_cons_of_neg (by simp [beq_iff_eq]; exact h)]
      exact ih hnd.2 ha2

theorem maxOrder_spec (l : List Int) (hl : l ≠ []) :
    ∃ M, maxOrder l = some M ∧ M ∈ l ∧ ∀ x ∈ l, x ≤ M := by
  induction l with
  | nil => exact absurd rfl hl
  | cons a t ih =>
    cases t with
    | nil =>
      refine ⟨a, rfl, by simp, ?_⟩
      intro x hx
      rcases List.mem_cons.mp hx with rfl | hx2
      · exact le_refl _
      · simp at hx2
    | cons b t2 =>
      obtain ⟨M, hM, hmem, hub⟩ := ih (by simp)
      refine ⟨max a M, ?_, ?_, ?_⟩
      · rw [maxOrder, hM]
      · rcases le_total a M with h | h
        · rw [max_eq_right h]; exact List.mem_cons_of_mem _ hmem
        · rw [max_eq_left h]; exact List.mem_cons_self _ _
      · intro x hx
        rcases List.mem_cons.mp hx with rfl | hx2
        · exact le_max_left _ _
        · exact le_trans (hub x hx2) (le_max_right _ _)

/-! ## Concrete fixtures used by the witnesses and counterexamples -/

/-- A board owned by `u1` with `u2` as its one (non-owner) member. -/
def b1 : Board := { id := "b1", title := "B1", ownerId := "u1", members := [{ userId := "u2" }] }

/-- A second board, owned by `u9`, with no members: `u1` and `u2` have no
access to it. -/
def b2 : Board := { id := "b2", title := "B2", ownerId := "u9", members := [] }

/-- A list on board `b1`. -/
def l1 : BoardList := { id := "l1", boardId := "b1", title := "Todo", order := 0 }

/-- A list on board `b2`. -/
def l2 : BoardList := { id := "l2", boardId := "b2", title := "Other", order := 0 }

/-- A card on list `l1`. -/
def c1 : Card :=
  { id := "c1", listId := "l1", title := "Fix", description := none,
    labels := [], dueDate := none, order := 0 }

/-- The fixture store. -/
def s0 : Store := { boards := [b1, b2], lists := [l1, l2], cards := [c1] }

/-! ## The claims -/

/-- Claim C1: for every user `u` and existing board `b` (loaded with its
member rows), the access check applied by the board/list/card operations
grants `u` access to `b` iff `u` is `b.ownerId` or some member row of
`b` carries `u`'s id; otherwise the operation answers 403 with the store
untouched.  Stated for every operation guarded by the member-level
check: board read, list create/update/delete, bulk list reorder, card
create/read/update/delete, and card move (where the check guards both
the source and the target board). -/
theorem access_iff_owner_or_member (s : Store) (u : String) :
    (∀ id b, findBoard s id = some b →
      (getBoardById u id s = (403, s) ↔ hasAccess u b = false)) ∧
    (∀ id b t nid, blankTitle t = false → findBoard s id = some b →
      (createList u id t nid s = (403, s) ↔ hasAccess u b = false)) ∧
    (∀ id l b t, blankTitle t = false → findList s id = some l →
      findBoard s l.boardId = some b →
      (updateList u id t s = (403, s) ↔ hasAccess u b = false)) ∧
    (∀ id l b, findList s id = some l → findBoard s l.boardId = some b →
      (deleteList u id s = (403, s) ↔ hasAccess u b = false)) ∧
    (∀ items i0 o0 rest fl b, checkItems items = some ((i0, o0) :: rest) →
      findList s i0 = some fl → findBoard s fl.boardId = some b →
      (reorderLists u (some items) s = (403, s) ↔ hasAccess u b = false)) ∧
    (∀ id l b t d lb dd nid, blankTitle t = false → findList s id = some l →
      findBoard s l.boardId = some b →
      (createCard u id t d lb dd nid s = (403, s) ↔ hasAccess u b = false)) ∧
    (∀ id c l b, findCard s id = some c → findList s c.listId = some l →
      findBoard s l.boardId = some b →
      (getCard u id s = (403, s) ↔ hasAccess u b = false)) ∧
    (∀ id c l b t d lb dd, findCard s id = some c → findList s c.listId = some l →
      findBoard s l.boardId = some b →
      (updateCard u id t d lb dd s = (403, s) ↔ hasAccess u b = false)) ∧
    (∀ id c l b, findCard s id = some c → findList s c.listId = some l →
      findBoard s l.boardId = some b →
      (deleteCard u id s = (403, s) ↔ hasAccess u b = false)) ∧
    (∀ id tl o c srcL srcB tgtL tgtB, (tl == "") = false →
      findCard s id = some c → findList s c.listId = some srcL →
      findBoard s srcL.boardId = some srcB → findList s tl = some tgtL →
      findBoard s tgtL.boardId = some tgtB →
      (moveCard u id (some tl) (some o) s = (403, s) ↔
        (hasAccess u srcB = false ∨ hasAccess u tgtB = false))) := by
  refine ⟨?_, ?_, ?_, ?_, ?_, ?_, ?_, ?_, ?_, ?_⟩
  · intro id b hb
    rw [getBoardById_eq s u id b hb]
    cases h : hasAccess u b <;> simp [h]
  · intro id b t nid ht hb
    rw [createList_eq s u id nid t b ht hb]
    cases h : hasAccess u b <;> simp [h]
  · intro id l b t ht hl hb
    rw [updateList_eq s u id t l b ht hl hb]
    cases h : hasAccess u b <;> simp [h]
  · intro id l b hl hb
    rw [deleteList_eq s u id l b hl hb]
    cases h : hasAccess u b <;> simp [h]
  · intro items i0 o0 rest fl b hv hfl hb
    rw [reorderLists_stage s u items i0 o0 rest hv, hfl]
    dsimp only
    rw [hb]
    dsimp only
    cases h : hasAccess u b with
    | false => simp [h]
    | true =>
      simp only [h, if_true]
      cases happ : applyListOrderUpdates ((i0, o0) :: rest) s.lists <;> simp [h]
  · intro id l b t d lb dd nid ht hl hb
    rw [createCard_eq s u id nid t d lb dd l b ht hl hb]
    cases h : hasAccess u b <;> simp [h]
  · intro id c l b hc hl hb
    rw [getCard_eq s u id c l b hc hl hb]
    cases h : hasAccess u b <;> simp [h]
  · intro id c l b t d lb dd hc hl hb
    cases h : hasAccess u b with
    | false => rw [updateCard_denied s u id t d lb dd c l b hc hl hb h]; simp [h]
    | true =>
      cases t with
      | none => rw [updateCard_noTitle s u id d lb dd c l b hc hl hb h]; simp [h]
      | some tt =>
        cases htt : (jsTrim tt == "") with
        | true => rw [updateCard_badTitle s u id tt d lb dd c l b hc hl hb h htt]; simp [h]
        | false => rw [updateCard_someTitle s u id tt d lb dd c l b hc hl hb h htt]; simp [h]
  · intro id c l b hc hl hb
    rw [deleteCard_eq s u id c l b hc hl hb]
    cases h : hasAccess u b <;> simp [h]
  · intro id tl o c srcL srcB tgtL tgtB htl hc hsl hsb htgt htb
    cases h1 : hasAccess u srcB with
    | false => rw [moveCard_srcDenied s u id tl o c srcL srcB htl hc hsl hsb h1]; simp [h1]
    | true =>
      cases h2 : hasAccess u tgtB with
      | false =>
        rw [moveCard_tgtDenied s u id tl o c srcL srcB tgtL tgtB htl hc hsl hsb h1 htgt htb h2]
        simp [h1, h2]
      | true =>
        rw [moveCard_ok s u id tl o c srcL srcB tgtL tgtB htl hc hsl hsb h1 htgt htb h2]
        simp [h1, h2]

/-- Witness for C1: in the fixture store, the outsider `u9` is denied
board `b1` (owner `u1`, member `u2`) and denied card creation on its
list, while both checks say denied exactly because `hasAccess` is false. -/
theorem access_iff_owner_or_member_witness :
    getBoardById "u9" "b1" s0 = (403, s0) ∧
    createCard "u9" "l1" (some "T") none none none "c9" s0 = (403, s0) := by
  have h := access_iff_owner_or_member s0 "u9"
  exact ⟨(h.1 "b1" b1 rfl).mpr rfl,
    (h.2.2.2.2.2.1 "l1" l1 b1 (some "T") none none none "c9" (by decide) rfl rfl).mpr rfl⟩

/-- Claim C2: updating or deleting a board succeeds only for its owner;
any other authenticated user — a non-owner member included — gets 403
on both operations with the store unchanged. -/
theorem board_update_delete_owner_only (s : Store) (u id : String) (b : Board)
    (t : Option String) (hb : findBoard s id = some b) (ht : blankTitle t = false) :
    (u ≠ b.ownerId →
      updateBoard u id t s = (403, s) ∧ deleteBoard u id s = (403, s)) ∧
    (u = b.ownerId →
      (updateBoard u id t s).fst = 200 ∧ (deleteBoard u id s).fst = 200) := by
  constructor
  · intro hne
    have hbeq : (b.ownerId == u) = false := by
      rw [beq_eq_false_iff_ne]
      exact fun hh => hne hh.symm
    refine ⟨?_, ?_⟩
    · rw [updateBoard_eq s u id t b ht hb, hbeq]; simp
    · rw [deleteBoard_eq s u id b hb, hbeq]; simp
  · intro hEq
    have hbeq : (b.ownerId == u) = true := by rw [beq_iff_eq]; exact hEq.symm
    refine ⟨?_, ?_⟩
    · rw [updateBoard_eq s u id t b ht hb, hbeq]; simp
    · rw [deleteBoard_eq s u id b hb, hbeq]; simp

/-- Witness for C2: the concrete spec scenario — owner `u1`, member
`u2`: `u2`'s update and delete of board `b1` are denied and leave the
store unchanged, `u1`'s succeed. -/
theorem board_update_delete_owner_only_witness :
    (updateBoard "u2" "b1" (some "X") s0 = (403, s0) ∧
      deleteBoard "u2" "b1" s0 = (403, s0)) ∧
    ((updateBoard "u1" "b1" (some "X") s0).fst = 200 ∧
      (deleteBoard "u1" "b1" s0).fst = 200) :=
  ⟨(board_update_delete_owner_only s0 "u2" "b1" b1 (some "X") rfl (by decide)).1 (by decide),
   (board_update_delete_owner_only s0 "u1" "b1" b1 (some "X") rfl (by decide)).2 rfl⟩

/-- Claim C8: whenever the target id of an operation does not resolve,
the outcome is 404 with the store untouched, for every user alike — so
the access check is never reached and a non-member probing a nonexistent
id sees NotFound, never AccessDenied.  (Operations that validate the
payload before the lookup are stated for a well-formed payload.) -/
theorem notFound_before_access (s : Store) (u : String) :
    (∀ id, findBoard s id = none → getBoardById u id s = (404, s)) ∧
    (∀ id t, blankTitle t = false → findBoard s id = none →
      updateBoard u id t s = (404, s)) ∧
    (∀ id, findBoard s id = none → deleteBoard u id s = (404, s)) ∧
    (∀ id t nid, blankTitle t = false → findBoard s id = none →
      createList u id t nid s = (404, s)) ∧
    (∀ id t, blankTitle t = false → findList s id = none →
      updateList u id t s = (404, s)) ∧
    (∀ id, findList s id = none → deleteList u id s = (404, s)) ∧
    (∀ id t d lb dd nid, blankTitle t = false → findList s id = none →
      createCard u id t d lb dd nid s = (404, s)) ∧
    (∀ id, findCard s id = none → getCard u id s = (404, s)) ∧
    (∀ id t d lb dd, findCard s id = none → updateCard u id t d lb dd s = (404, s)) ∧
    (∀ id, findCard s id = none → deleteCard u id s = (404, s)) ∧
    (∀ id tl o, (tl == "") = false → findCard s id = none →
      moveCard u id (some tl) (some o) s = (404, s)) ∧
    (∀ items i0 o0 rest, checkItems items = some ((i0, o0) :: rest) →
      findList s i0 = none → reorderLists u (some items) s = (404, s)) := by
  refine ⟨fun id hb => getBoardById_notFound s u id hb,
    fun id t ht hb => updateBoard_notFound s u id t ht hb,
    fun id hb => deleteBoard_notFound s u id hb,
    fun id t nid ht hb => createList_notFound s u id nid t ht hb,
    fun id t ht hl => updateList_notFound s u id t ht hl,
    fun id hl => deleteList_notFound s u id hl,
    fun id t d lb dd nid ht hl => createCard_notFound s u id nid t d lb dd ht hl,
    fun id hc => getCard_notFound s u id hc,
    fun id t d lb dd hc => updateCard_notFound s u id t d lb dd hc,
    fun id hc => deleteCard_notFound s u id hc,
    fun id tl o htl hc => moveCard_cardNotFound s u id tl o htl hc,
    fun items i0 o0 rest hv hfl => ?_⟩
  rw [reorderLists_stage s u items i0 o0 rest hv, hfl]

/-- Witness for C8: `u9`, who is a member of nothing, probes the absent
board id `zz` and the absent card id `nope`; both answer 404, not 403. -/
theorem notFound_before_access_witness :
    getBoardById "u9" "zz" s0 = (404, s0) ∧ getCard "u9" "nope" s0 = (404, s0) :=
  ⟨(notFound_before_access s0 "u9").1 "zz" rfl,
   (notFound_before_access s0 "u9").2.2.2.2.2.2.2.1 "nope" rfl⟩

theorem moveCard_tgtBoardMissing (s : Store) (u id tl : String) (o : Int)
    (c : Card) (srcL : BoardList) (srcB : Board) (tgtL : BoardList)
    (htl : (tl == "") = false) (hc : findCard s id = some c)
    (hsl : findList s c.listId = some srcL) (hsb : findBoard s srcL.boardId = some srcB)
    (hacc : hasAccess u srcB = true) (htgt : findList s tl = some tgtL)
    (htb : findBoard s tgtL.boardId = none) :
    moveCard u id (some tl) (some o) s = (500, s) := by
  simp only [moveCard, htl, hc, hsl, hsb, hacc, htgt, htb, Bool.false_eq_true, if_false]
  simp

theorem findCard_after_update (s : Store) (id : String) (c : Card) (g : Card → Card)
    (hg : ∀ x, (g x).id = x.id) (hc : findCard s id = some c) :
    findCard { s with cards := s.cards.map (fun x => if x.id == id then g x else x) } id
      = some (g c) := by
  have hpred : ∀ x : Card, ((if x.id == id then g x else x).id == id) = (x.id == id) := by
    intro x
    cases h : x.id == id with
    | true => simp [h, hg x]
    | false => simp [h]
  unfold findCard at hc ⊢
  dsimp only
  rw [find_map_of_pred_eq _ _ hpred, hc]
  have hcid : (c.id == id) = true := List.find?_some (p := fun x : Card => x.id == id) hc
  simp [hcid]
  intro hne
  exact absurd (beq_iff_eq.mp hcid) hne

/-- Claim C6: for an existing card and a well-formed body, `moveCard`
succeeds only when the caller has access to both the card's current
board and the target list's board; a missing target list answers 404,
a failed access check on either side answers 403, and on every failure
the store — in particular the card's `listId` and `order` — is
unchanged. -/
theorem moveCard_requires_access_both_sides (s : Store) (u id tl : String) (o : Int)
    (c : Card) (srcL : BoardList) (srcB : Board)
    (htl : (tl == "") = false) (hc : findCard s id = some c)
    (hsl : findList s c.listId = some srcL) (hsb : findBoard s srcL.boardId = some srcB) :
    (hasAccess u srcB = false → moveCard u id (some tl) (some o) s = (403, s)) ∧
    (hasAccess u srcB = true → findList s tl = none →
      moveCard u id (some tl) (some o) s = (404, s)) ∧
    (∀ tgtL tgtB, findList s tl = some tgtL → findBoard s tgtL.boardId = some tgtB →
      (hasAccess u tgtB = false → moveCard u id (some tl) (some o) s = (403, s)) ∧
      (hasAccess u srcB = true → hasAccess u tgtB = true →
        moveCard u id (some tl) (some o) s =
          (200, { s with cards := s.cards.map (fun c2 =>
            if c2.id == id then { c2 with listId := tl, order := o } else c2) }))) ∧
    ((moveCard u id (some tl) (some o) s).fst = 200 →
      hasAccess u srcB = true ∧
      ∀ tgtL tgtB, findList s tl = some tgtL → findBoard s tgtL.boardId = some tgtB →
        hasAccess u tgtB = true) := by
  refine ⟨fun h1 => moveCard_srcDenied s u id tl o c srcL srcB htl hc hsl hsb h1,
    fun h1 h2 => moveCard_targetNotFound s u id tl o c srcL srcB htl hc hsl hsb h1 h2,
    ?_, ?_⟩
  · intro tgtL tgtB htgt htb
    constructor
    · intro h2
      cases h1 : hasAccess u srcB with
      | false => exact moveCard_srcDenied s u id tl o c srcL srcB htl hc hsl hsb h1
      | true =>
        exact moveCard_tgtDenied s u id tl o c srcL srcB tgtL tgtB htl hc hsl hsb h1 htgt htb h2
    · intro h1 h2
      exact moveCard_ok s u id tl o c srcL srcB tgtL tgtB htl hc hsl hsb h1 htgt htb h2
  · intro h200
    cases h1 : hasAccess u srcB with
    | false =>
      rw [moveCard_srcDenied s u id tl o c srcL srcB htl hc hsl hsb h1] at h200
      simp at h200
    | true =>
      refine ⟨rfl, fun tgtL tgtB htgt htb => ?_⟩
      cases h2 : hasAccess u tgtB with
      | false =>
        rw [moveCard_tgtDenied s u id tl o c srcL srcB tgtL tgtB htl hc hsl hsb h1 htgt htb h2]
          at h200
        simp at h200
      | true => rfl

/-- Witness for C6: `u1` owns the source board of card `c1` but has no
access to board `b2`, so moving `c1` to `l2` (a list of `b2`) is denied
with the store unchanged; moving it within `b1` succeeds. -/
theorem moveCard_requires_access_both_sides_witness :
    moveCard "u1" "c1" (some "l2") (some 5) s0 = (403, s0) ∧
    moveCard "u1" "c1" (some "l1") (some 5) s0 =
      (200, { s0 with cards := s0.cards.map (fun c2 =>
        if c2.id == "c1" then { c2 with listId := "l1", order := (5 : Int) } else c2) }) := by
  have h := moveCard_requires_access_both_sides s0 "u1" "c1" "l2" 5 c1 l1 b1
    (by decide) rfl rfl rfl
  have h2 := moveCard_requires_access_both_sides s0 "u1" "c1" "l1" 5 c1 l1 b1
    (by decide) rfl rfl rfl
  exact ⟨((h.2.2.1 l2 b2 rfl rfl).1 rfl),
    ((h2.2.2.1 l1 b1 rfl rfl).2 rfl rfl)⟩

/-- Claim C7: a successful `createList` (resp. `createCard`) appends an
entity whose `order` is the maximum order among the board's existing
lists (resp. the list's existing cards) plus one, and `0` when there are
no siblings. -/
theorem created_order_max_plus_one (s : Store) (u : String) :
    (∀ bid b t nid, blankTitle t = false → findBoard s bid = some b →
      hasAccess u b = true →
      ∃ nl : BoardList,
        createList u bid t nid s = (201, { s with lists := s.lists ++ [nl] }) ∧
        ((s.lists.filter (fun l => l.boardId == bid)).map (·.order) = [] →
          nl.order = 0) ∧
        (∀ m, m ∈ (s.lists.filter (fun l => l.boardId == bid)).map (·.order) →
          (∀ x ∈ (s.lists.filter (fun l => l.boardId == bid)).map (·.order), x ≤ m) →
          nl.order = m + 1)) ∧
    (∀ lid l b t d lb dd nid, blankTitle t = false → findList s lid = some l →
      findBoard s l.boardId = some b → hasAccess u b = true →
      ∃ nc : Card,
        createCard u lid t d lb dd nid s = (201, { s with cards := s.cards ++ [nc] }) ∧
        ((s.cards.filter (fun c => c.listId == lid)).map (·.order) = [] →
          nc.order = 0) ∧
        (∀ m, m ∈ (s.cards.filter (fun c => c.listId == lid)).map (·.order) →
          (∀ x ∈ (s.cards.filter (fun c => c.listId == lid)).map (·.order), x ≤ m) →
          nc.order = m + 1)) := by
  constructor
  · intro bid b t nid ht hb hacc
    rw [createList_eq s u bid nid t b ht hb, hacc]
    simp only [if_true]
    refine ⟨_, rfl, ?_, ?_⟩
    · intro hnil
      simp only [hnil]
      rfl
    · intro m hm hub2
      obtain ⟨M, hM, hmem, hub⟩ := maxOrder_spec _ (List.ne_nil_of_mem hm)
      simp only [hM]
      have hMm : M = m := le_antisymm (hub2 M hmem) (hub m hm)
      rw [hMm]
  · intro lid l b t d lb dd nid ht hl hb hacc
    rw [createCard_eq s u lid nid t d lb dd l b ht hl hb, hacc]
    simp only [if_true]
    refine ⟨_, rfl, ?_, ?_⟩
    · intro hnil
      simp only [hnil]
      rfl
    · intro m hm hub2
      obtain ⟨M, hM, hmem, hub⟩ := maxOrder_spec _ (List.ne_nil_of_mem hm)
      simp only [hM]
      have hMm : M = m := le_antisymm (hub2 M hmem) (hub m hm)
      rw [hMm]

/-- Witness for C7: on the fixture store, board `b1` has one list of
order 0, so a new list gets order 1; list `l1` has one card of order 0,
so a new card gets order 1. -/
theorem created_order_max_plus_one_witness :
    (∃ nl : BoardList,
      createList "u1" "b1" (some "L") "l9" s0 = (201, { s0 with lists := s0.lists ++ [nl] }) ∧
      nl.order = 1) ∧
    (∃ nc : Card,
      createCard "u1" "l1" (some "C") none none none "c9" s0 =
        (201, { s0 with cards := s0.cards ++ [nc] }) ∧ nc.order = 1) := by
  obtain ⟨nl, hEq, _, hmax⟩ :=
    (created_order_max_plus_one s0 "u1").1 "b1" b1 (some "L") "l9" (by decide) rfl rfl
  obtain ⟨nc, hEq2, _, hmax2⟩ :=
    (created_order_max_plus_one s0 "u1").2 "l1" l1 b1 (some "C") none none none "c9"
      (by decide) rfl rfl rfl
  exact ⟨⟨nl, hEq, hmax 0 (by decide) (by decide)⟩,
    ⟨nc, hEq2, hmax2 0 (by decide) (by decide)⟩⟩

/-- Claim C10: `updateCard` is a strictly partial update: every body
field that is absent leaves the stored field unchanged (and `listId` and
`order` are never touched); an all-absent body returns the store exactly
as it was. -/
theorem updateCard_partial_fields (s : Store) (u id : String) (c : Card)
    (l : BoardList) (b : Board)
    (hc : findCard s id = some c) (hl : findList s c.listId = some l)
    (hb : findBoard s l.boardId = some b) (hacc : hasAccess u b = true) :
    (∀ t d lb dd s2, updateCard u id t d lb dd s = (200, s2) →
      ∃ c2, findCard s2 id = some c2 ∧
        (t = none → c2.title = c.title) ∧
        (d = none → c2.description = c.description) ∧
        (lb = none → c2.labels = c.labels) ∧
        (dd = none → c2.dueDate = c.dueDate) ∧
        c2.listId = c.listId ∧ c2.order = c.order) ∧
    updateCard u id none none none none s = (200, s) := by
  constructor
  · intro t d lb dd s2 hup
    cases t with
    | none =>
      rw [updateCard_noTitle s u id d lb dd c l b hc hl hb hacc] at hup
      injection hup with h1 h2
      subst h2
      refine ⟨applyCardBody none d lb dd c,
        findCard_after_update s id c (applyCardBody none d lb dd) (fun x => rfl) hc,
        fun _ => rfl, ?_, ?_, ?_, rfl, rfl⟩
      · rintro rfl; rfl
      · rintro rfl
        simp [applyCardBody]
      · rintro rfl; rfl
    | some tt =>
      cases htt : (jsTrim tt == "") with
      | true =>
        rw [updateCard_badTitle s u id tt d lb dd c l b hc hl hb hacc htt] at hup
        simp at hup
      | false =>
        rw [updateCard_someTitle s u id tt d lb dd c l b hc hl hb hacc htt] at hup
        injection hup with h1 h2
        subst h2
        refine ⟨applyCardBody (some (jsTrim tt)) d lb dd c,
          findCard_after_update s id c (applyCardBody (some (jsTrim tt)) d lb dd)
            (fun x => rfl) hc,
          fun h => Option.noConfusion h, ?_, ?_, ?_, rfl, rfl⟩
        · rintro rfl; rfl
        · rintro rfl
          simp [applyCardBody]
        · rintro rfl; rfl
  · rw [updateCard_noTitle s u id none none none c l b hc hl hb hacc]
    have hmap : s.cards.map (fun c2 =>
        if c2.id == id then applyCardBody none none none none c2 else c2) = s.cards := by
      have h1 : ∀ c2 : Card, applyCardBody none none none none c2 = c2 := fun _ => rfl
      simp [h1]
    rw [hmap]

/-- Witness for C10: updating card `c1` with an empty body leaves the
fixture store exactly as it is, and a body carrying only a title leaves
description, labels and due date unchanged. -/
theorem updateCard_partial_fields_witness :
    updateCard "u2" "c1" none none none none s0 = (200, s0) ∧
    (∃ c2, findCard (updateCard "u2" "c1" (some "New") none none none s0).snd "c1" = some c2 ∧
      c2.description = c1.description ∧ c2.labels = c1.labels ∧ c2.dueDate = c1.dueDate) := by
  have h := updateCard_partial_fields s0 "u2" "c1" c1 l1 b1 rfl rfl rfl rfl
  refine ⟨h.2, ?_⟩
  obtain ⟨c2, hfind, _, hd, hlb, hdd, _, _⟩ :=
    h.1 (some "New") none none none (updateCard "u2" "c1" (some "New") none none none s0).snd
      (by rfl)
  exact ⟨c2, hfind, hd rfl, hlb rfl, hdd rfl⟩

theorem checkItems_nil_of_some_nil (items : List ReorderItem)
    (h : checkItems items = some []) : items = [] := by
  cases items with
  | nil => rfl
  | cons it rest =>
    exfalso
    rw [checkItems] at h
    cases hid : it.id with
    | none => rw [hid] at h; simp at h
    | some i =>
      cases ho : it.order with
      | none => rw [hid, ho] at h; simp at h
      | some o =>
        rw [hid, ho] at h
        cases hi : (i == "") with
        | true => simp [hi] at h
        | false =>
          cases hcr : checkItems rest with
          | none => simp [hi, hcr] at h
          | some ps => simp [hi, hcr] at h

theorem reorderLists_total (s : Store) (u : String) (items : List ReorderItem) :
    ((reorderLists u (some items) s).fst ≠ 200 ∧ (reorderLists u (some items) s).snd = s) ∨
    ((reorderLists u (some items) s).fst = 200 ∧
      ∃ pairs, checkItems items = some pairs ∧
        applyListOrderUpdates pairs s.lists =
          some ((reorderLists u (some items) s).snd.lists) ∧
        (reorderLists u (some items) s).snd.boards = s.boards ∧
        (reorderLists u (some items) s).snd.cards = s.cards) := by
  cases hv : checkItems items with
  | none =>
    rw [reorderLists_invalid s u items hv]
    exact Or.inl ⟨by simp, rfl⟩
  | some pairs =>
    cases pairs with
    | nil =>
      have hnil := checkItems_nil_of_some_nil items hv
      subst hnil
      exact Or.inl ⟨by simp [reorderLists], rfl⟩
    | cons p rest =>
      obtain ⟨i0, o0⟩ := p
      rw [reorderLists_stage s u items i0 o0 rest hv]
      cases hfl : findList s i0 with
      | none => exact Or.inl ⟨by simp, rfl⟩
      | some fl =>
        dsimp only
        cases hb : findBoard s fl.boardId with
        | none => exact Or.inl ⟨by simp, rfl⟩
        | some b =>
          dsimp only
          cases hacc : hasAccess u b with
          | false =>
            simp only [Bool.false_eq_true, if_false]
            exact Or.inl ⟨by simp, by simp⟩
          | true =>
            simp only [if_true]
            cases happ : applyListOrderUpdates ((i0, o0) :: rest) s.lists with
            | none => exact Or.inl ⟨by simp, rfl⟩
            | some ls2 =>
              exact Or.inr ⟨rfl, (i0, o0) :: rest, rfl, happ, rfl, rfl⟩

/-- Claim C4: `reorderLists` persists the supplied (id, order) pairs
atomically — on any failure (a pair naming an absent list included) no
list's order changes at all, and on success every pair is applied, the
last pair for an id winning. -/
theorem reorderLists_atomic_batch (s : Store) (u : String) (items : List ReorderItem)
    (pairs : List (String × Int)) (hv : checkItems items = some pairs) :
    ((reorderLists u (some items) s).fst ≠ 200 →
      (reorderLists u (some items) s).snd = s) ∧
    ((reorderLists u (some items) s).fst = 200 →
      (∀ p ∈ pairs, ∃ l ∈ s.lists, l.id = p.1) ∧
      ∀ i o, lastOrder pairs i = some o →
        ∀ l2 ∈ (reorderLists u (some items) s).snd.lists, l2.id = i → l2.order = o) := by
  rcases reorderLists_total s u items with ⟨hne, hsnd⟩ | ⟨h200, pairs2, hv2, happ, _, _⟩
  · exact ⟨fun _ => hsnd, fun h => absurd h hne⟩
  · refine ⟨fun hne => absurd h200 hne, fun _ => ?_⟩
    rw [hv] at hv2
    injection hv2 with hp
    subst hp
    constructor
    · intro p hp2
      by_contra hno
      push_neg at hno
      have hnone : applyListOrderUpdates pairs s.lists = none :=
        (applyListOrderUpdates_none_iff pairs s.lists).mpr
          ⟨p, hp2, fun l hl => hno l hl⟩
      rw [hnone] at happ
      simp at happ
    · intro i o hlast l2 hl2 hid
      have hlists := applyListOrderUpdates_some pairs s.lists _ happ
      rw [hlists] at hl2
      rcases List.mem_map.mp hl2 with ⟨l0, hl0, rfl⟩
      have hid0 : l0.id = i := by rw [← (applyPairs_fields pairs l0).1]; exact hid
      rw [applyPairs_order, hid0, hlast]
      rfl

/-- Witness for C4: a batch naming the absent id `zz` leaves the fixture
store untouched; a successful batch sets `l1`'s order to its pair's
value 3. -/
theorem reorderLists_atomic_batch_witness :
    (reorderLists "u1" (some [⟨some "l1", some 3⟩, ⟨some "zz", some 9⟩]) s0).snd = s0 ∧
    ∀ l2 ∈ (reorderLists "u1" (some [⟨some "l1", some 3⟩]) s0).snd.lists,
      l2.id = "l1" → l2.order = 3 := by
  have h1 := reorderLists_atomic_batch s0 "u1" [⟨some "l1", some 3⟩, ⟨some "zz", some 9⟩]
    [("l1", 3), ("zz", 9)] (by rfl)
  have h2 := reorderLists_atomic_batch s0 "u1" [⟨some "l1", some 3⟩] [("l1", 3)] (by rfl)
  exact ⟨h1.1 (by decide),
    fun l2 hl2 hid => (h2.2 (by rfl)).2 "l1" 3 (by rfl) l2 hl2 hid⟩

/-- Claim C9: a successful `reorderLists` call leaves boards and cards
untouched and rewrites the stored lists through `applyPairs`, which
changes nothing but the `order` field of the lists named in the payload:
id, title and boardId of every list are preserved, and a list named by
no pair is returned verbatim. -/
theorem reorderLists_only_named_orders (s : Store) (u : String) (items : List ReorderItem)
    (s2 : Store) (h : reorderLists u (some items) s = (200, s2)) :
    s2.boards = s.boards ∧ s2.cards = s.cards ∧
    ∃ pairs, checkItems items = some pairs ∧
      s2.lists = s.lists.map (applyPairs pairs) ∧
      ∀ l ∈ s.lists,
        (applyPairs pairs l).id = l.id ∧
        (applyPairs pairs l).title = l.title ∧
        (applyPairs pairs l).boardId = l.boardId ∧
        (l.id ∉ pairs.map Prod.fst → applyPairs pairs l = l) := by
  rcases reorderLists_total s u items with ⟨hne, _⟩ | ⟨_, pairs, hv, happ, hbd, hcd⟩
  · rw [h] at hne
    simp at hne
  · rw [h] at happ hbd hcd
    refine ⟨hbd, hcd, pairs, hv, applyListOrderUpdates_some pairs s.lists _ happ, ?_⟩
    intro l hl
    exact ⟨(applyPairs_fields pairs l).1, (applyPairs_fields pairs l).2.1,
      (applyPairs_fields pairs l).2.2, fun hnm => applyPairs_not_named pairs l hnm⟩

/-- The fixture store after reordering `l1` to order 3. -/
def s0reordered : Store :=
  { boards := [b1, b2],
    lists := [{ id := "l1", boardId := "b1", title := "Todo", order := 3 }, l2],
    cards := [c1] }

/-- Witness for C9: reordering `l1` to 3 in the fixture store touches
neither boards nor cards nor the unnamed list `l2`. -/
theorem reorderLists_only_named_orders_witness :
    s0reordered.boards = s0.boards ∧ s0reordered.cards = s0.cards ∧
    ∃ pairs, checkItems [(⟨some "l1", some 3⟩ : ReorderItem)] = some pairs ∧
      s0reordered.lists = s0.lists.map (applyPairs pairs) ∧
      ∀ l ∈ s0.lists,
        (applyPairs pairs l).id = l.id ∧
        (applyPairs pairs l).title = l.title ∧
        (applyPairs pairs l).boardId = l.boardId ∧
        (l.id ∉ pairs.map Prod.fst → applyPairs pairs l = l) :=
  reorderLists_only_named_orders s0 "u1" [⟨some "l1", some 3⟩] s0reordered (by decide)

theorem moveCard_srcListMissing (s : Store) (u id tl : String) (o : Int) (c : Card)
    (htl : (tl == "") = false) (hc : findCard s id = some c)
    (hsl : findList s c.listId = none) :
    moveCard u id (some tl) (some o) s = (500, s) := by
  simp only [moveCard, htl, hc, hsl, Bool.false_eq_true, if_false]

theorem moveCard_srcBoardMissing (s : Store) (u id tl : String) (o : Int)
    (c : Card) (srcL : BoardList)
    (htl : (tl == "") = false) (hc : findCard s id = some c)
    (hsl : findList s c.listId = some srcL) (hsb : findBoard s srcL.boardId = none) :
    moveCard u id (some tl) (some o) s = (500, s) := by
  simp only [moveCard, htl, hc, hsl, hsb, Bool.false_eq_true, if_false]

/-- Store well-formedness: list ids are unique and every card's `listId`
references an existing list (the store's foreign-key guarantees). -/
def WF (s : Store) : Prop :=
  (s.lists.map (·.id)).Nodup ∧ ∀ c ∈ s.cards, c.listId ∈ s.lists.map (·.id)

/-- How many lists of the store carry the given id — the number of lists
a card with that `listId` belongs to. -/
def listCount (s : Store) (lid : String) : Nat :=
  (s.lists.filter (fun l => l.id == lid)).length

/-- Claim C5: `moveCard` writes the card's `listId` and `order` in one
store update: whatever the outcome, the card is found with either its
original `(listId, order)` pair or — exactly on success — the requested
`(targetListId, newOrder)` pair, never a mixture; and in every resulting
store the card belongs to exactly one list (its `listId` matches
precisely one list), well-formedness being preserved. -/
theorem moveCard_single_placement (s : Store) (u cid : String) (tl? : Option String)
    (o? : Option Int) (c : Card) (hwf : WF s) (hc : findCard s cid = some c) :
    WF (moveCard u cid tl? o? s).snd ∧
    ∃ c2, findCard (moveCard u cid tl? o? s).snd cid = some c2 ∧
      ((c2.listId = c.listId ∧ c2.order = c.order) ∨
        ((moveCard u cid tl? o? s).fst = 200 ∧ ∃ tl o, tl? = some tl ∧ o? = some o ∧
          c2.listId = tl ∧ c2.order = o)) ∧
      listCount (moveCard u cid tl? o? s).snd c2.listId = 1 := by
  obtain ⟨hnd, hfk⟩ := hwf
  have hmem : c ∈ s.cards := List.mem_of_find?_eq_some hc
  have hin : c.listId ∈ s.lists.map (·.id) := hfk c hmem
  have hcount : listCount s c.listId = 1 := by
    unfold listCount
    exact length_filter_eq_one_of_nodup (fun l : BoardList => l.id) s.lists hnd c.listId hin
  cases tl? with
  | none =>
    rw [moveCard_invalid s u cid none o? (Or.inl rfl)]
    exact ⟨⟨hnd, hfk⟩, c, hc, Or.inl ⟨rfl, rfl⟩, hcount⟩
  | some tl =>
    cases o? with
    | none =>
      rw [moveCard_invalid s u cid (some tl) none (Or.inr (Or.inr rfl))]
      exact ⟨⟨hnd, hfk⟩, c, hc, Or.inl ⟨rfl, rfl⟩, hcount⟩
    | some o =>
      cases htl : (tl == "") with
      | true =>
        have hEq : tl = "" := beq_iff_eq.mp htl
        subst hEq
        rw [moveCard_invalid s u cid (some "") (some o) (Or.inr (Or.inl rfl))]
        exact ⟨⟨hnd, hfk⟩, c, hc, Or.inl ⟨rfl, rfl⟩, hcount⟩
      | false =>
        cases hsl : findList s c.listId with
        | none =>
          rw [moveCard_srcListMissing s u cid tl o c htl hc hsl]
          exact ⟨⟨hnd, hfk⟩, c, hc, Or.inl ⟨rfl, rfl⟩, hcount⟩
        | some srcL =>
          cases hsb : findBoard s srcL.boardId with
          | none =>
            rw [moveCard_srcBoardMissing s u cid tl o c srcL htl hc hsl hsb]
            exact ⟨⟨hnd, hfk⟩, c, hc, Or.inl ⟨rfl, rfl⟩, hcount⟩
          | some srcB =>
            cases hacc : hasAccess u srcB with
            | false =>
              rw [moveCard_srcDenied s u cid tl o c srcL srcB htl hc hsl hsb hacc]
              exact ⟨⟨hnd, hfk⟩, c, hc, Or.inl ⟨rfl, rfl⟩, hcount⟩
            | true =>
              cases htgt : findList s tl with
              | none =>
                rw [moveCard_targetNotFound s u cid tl o c srcL srcB htl hc hsl hsb hacc htgt]
                exact ⟨⟨hnd, hfk⟩, c, hc, Or.inl ⟨rfl, rfl⟩, hcount⟩
              | some tgtL =>
                cases htb : findBoard s tgtL.boardId with
                | none =>
                  rw [moveCard_tgtBoardMissing s u cid tl o c srcL srcB tgtL htl hc hsl hsb
                    hacc htgt htb]
                  exact ⟨⟨hnd, hfk⟩, c, hc, Or.inl ⟨rfl, rfl⟩, hcount⟩
                | some tgtB =>
                  cases hacc2 : hasAccess u tgtB with
                  | false =>
                    rw [moveCard_tgtDenied s u cid tl o c srcL srcB tgtL tgtB htl hc hsl hsb
                      hacc htgt htb hacc2]
                    exact ⟨⟨hnd, hfk⟩, c, hc, Or.inl ⟨rfl, rfl⟩, hcount⟩
                  | true =>
                    rw [moveCard_ok s u cid tl o c srcL srcB tgtL tgtB htl hc hsl hsb
                      hacc htgt htb hacc2]
                    have htlin : tl ∈ s.lists.map (·.id) := by
                      have hmemL : tgtL ∈ s.lists := List.mem_of_find?_eq_some htgt
                      have hbeq : (tgtL.id == tl) = true :=
                        List.find?_some (p := fun l : BoardList => l.id == tl) htgt
                      exact beq_iff_eq.mp hbeq ▸ List.mem_map_of_mem (·.id) hmemL
                    refine ⟨⟨hnd, ?_⟩, ?_⟩
                    · intro c2 hc2
                      rcases List.mem_map.mp hc2 with ⟨c0, hc0, rfl⟩
                      cases h0 : (c0.id == cid) with
                      | true =>
                        simp only [h0, if_true]
                        exact htlin
                      | false =>
                        simp only [h0, Bool.false_eq_true, if_false]
                        exact hfk c0 hc0
                    · refine ⟨{ c with listId := tl, order := o },
                        findCard_after_update s cid c
                          (fun c2 => { c2 with listId := tl, order := o }) (fun x => rfl) hc,
                        Or.inr ⟨rfl, tl, o, rfl, rfl, rfl, rfl⟩, ?_⟩
                      unfold listCount
                      exact length_filter_eq_one_of_nodup (fun l : BoardList => l.id) s.lists
                        hnd tl htlin

/-- Witness for C5: moving `c1` to list `l1` with order 5 in the
well-formed fixture store. -/
theorem moveCard_single_placement_witness :
    WF (moveCard "u2" "c1" (some "l1") (some 5) s0).snd ∧
    ∃ c2, findCard (moveCard "u2" "c1" (some "l1") (some 5) s0).snd "c1" = some c2 ∧
      ((c2.listId = c1.listId ∧ c2.order = c1.order) ∨
        ((moveCard "u2" "c1" (some "l1") (some 5) s0).fst = 200 ∧
          ∃ tl o, (some "l1" : Option String) = some tl ∧ (some 5 : Option Int) = some o ∧
            c2.listId = tl ∧ c2.order = o)) ∧
      listCount (moveCard "u2" "c1" (some "l1") (some 5) s0).snd c2.listId = 1 :=
  moveCard_single_placement s0 "u2" "c1" (some "l1") (some 5) c1 ⟨by decide, by decide⟩ rfl

/-- Counterexample to C3 as stated: in the fixture store, `u1` has no
access to board `b2`, yet a reorder payload whose first entry is `u1`'s
own list `l1` and whose second entry is `l2` — owned by the inaccessible
`b2` — succeeds with 200 and mutates `l2`, instead of the claimed
AccessDenied; and a payload naming the absent id `zz` after a valid
first entry answers 500, not the claimed NotFound. -/
theorem reorderLists_cross_scope_cex :
    hasAccess "u1" b2 = false ∧
    findList s0 "l2" = some l2 ∧ l2.boardId = "b2" ∧ findBoard s0 "b2" = some b2 ∧
    (reorderLists "u1" (some [⟨some "l1", some 0⟩, ⟨some "l2", some 7⟩]) s0).fst = 200 ∧
    findList (reorderLists "u1" (some [⟨some "l1", some 0⟩, ⟨some "l2", some 7⟩]) s0).snd "l2"
      = some { id := "l2", boardId := "b2", title := "Other", order := 7 } ∧
    reorderLists "u1" (some [⟨some "l1", some 0⟩, ⟨some "zz", some 7⟩]) s0 = (500, s0) := by
  refine ⟨rfl, rfl, rfl, rfl, rfl, by decide, by decide⟩

/-- Claim C3 as amended: only the *first* payload item is resolved and
authorized — an absent first id answers 404 and an inaccessible first
board answers 403, both without mutation; the remaining ids are not
validated against that scope: any absent id makes the whole call answer
500 with nothing applied, while pairs for lists of other (even
inaccessible) boards are persisted, the call answering 200 whenever all
ids exist. -/
theorem reorderLists_first_item_scope (s : Store) (u : String) (items : List ReorderItem)
    (i0 : String) (o0 : Int) (rest : List (String × Int))
    (hv : checkItems items = some ((i0, o0) :: rest)) :
    (findList s i0 = none → reorderLists u (some items) s = (404, s)) ∧
    (∀ fl b, findList s i0 = some fl → findBoard s fl.boardId = some b →
      (hasAccess u b = false → reorderLists u (some items) s = (403, s)) ∧
      (hasAccess u b = true →
        ((∃ p ∈ (i0, o0) :: rest, ∀ l ∈ s.lists, l.id ≠ p.1) →
          reorderLists u (some items) s = (500, s)) ∧
        ((∀ p ∈ (i0, o0) :: rest, ∃ l ∈ s.lists, l.id = p.1) →
          (reorderLists u (some items) s).fst = 200))) := by
  constructor
  · intro hfl
    rw [reorderLists_stage s u items i0 o0 rest hv, hfl]
  · intro fl b hfl hb
    rw [reorderLists_stage s u items i0 o0 rest hv, hfl]
    dsimp only
    rw [hb]
    dsimp only
    constructor
    · intro hacc
      simp only [hacc, Bool.false_eq_true, if_false]
    · intro hacc
      simp only [hacc, if_true]
      constructor
      · intro hex
        have hnone := (applyListOrderUpdates_none_iff ((i0, o0) :: rest) s.lists).mpr hex
        rw [hnone]
      · intro hall
        cases happ : applyListOrderUpdates ((i0, o0) :: rest) s.lists with
        | none =>
          exfalso
          rcases (applyListOrderUpdates_none_iff ((i0, o0) :: rest) s.lists).mp happ with
            ⟨p, hp, hnall⟩
          rcases hall p hp with ⟨l, hl, hid⟩
          exact hnall l hl hid
        | some ls2 => rfl

/-- Witness for the amended C3: an inaccessible *first* board is denied
(403) and an absent *first* id answers 404, in both cases without
mutation. -/
theorem reorderLists_first_item_scope_witness :
    reorderLists "u9" (some [⟨some "l1", some 3⟩]) s0 = (403, s0) ∧
    reorderLists "u1" (some [⟨some "zz", some 3⟩]) s0 = (404, s0) := by
  have h := reorderLists_first_item_scope s0 "u9" [⟨some "l1", some 3⟩] "l1" 3 [] (by rfl)
  have h2 := reorderLists_first_item_scope s0 "u1" [⟨some "zz", some 3⟩] "zz" 3 [] (by rfl)
  exact ⟨(h.2 l1 b1 rfl rfl).1 rfl, h2.1 rfl⟩

end TaskFlow
